import Mathlib

/-!
Shallow embedding of the del-mar-equine-command aggregation layer.

The embedding translates the data model of `src/lib/database.ts` and the
join/derivation/filter logic of `src/pages/CommandCenter.tsx`,
`src/components/RaceHistoryView.tsx` (LocationMap, generateTrackingId,
deleteSelectedOwners, deleteSelectedHorses), `src/pages/HorsesPage.tsx`
(ProblemsView), `src/hooks/useUnifiedFilters.ts` and
`src/pages/SeasonManagementPage.tsx` (bulk remove, CSV export/import).

Modelling conventions:
- JavaScript `Date` values become `Nat` millisecond timestamps.
- Optional TS string fields (`registration_number?`, `current_activity?`, ...)
  become `String` with `""` standing for `undefined`; this is faithful for the
  code under study because it only uses such fields through `===` comparison
  with non-empty literals and through `||`-defaulting, and both treat `""`
  and `undefined` alike.
- Optional numeric fields become `Option Nat`.
- The Dexie store becomes an explicit `Db` record of lists; `toArray` order is
  insertion order, queries become `List.find?` / `List.filter`.
- Fallible operations return `Except String Db`; an `error` result models the
  thrown-before-any-write paths of the source.
-/

structure Owner where
  id : Nat
  name : String
  email : String
  phone : String
  address : String
  created_at : Nat
  updated_at : Nat
deriving DecidableEq, Repr

structure Horse where
  id : Nat
  tracking_id : String
  name : String
  registration_number : String
  breed : String
  color : String
  age : Nat
  gender : String
  owner_id : Nat
  status : String
  current_location_id : Option Nat
  current_activity : String
  created_at : Nat
  updated_at : Nat
deriving DecidableEq, Repr

structure Location where
  id : Nat
  name : String
  ltype : String
  capacity : Nat
  current_occupancy : Nat
  created_at : Nat
  updated_at : Nat
deriving DecidableEq, Repr

structure LocationAssignment where
  id : Nat
  horse_id : Nat
  location_id : Nat
  assigned_at : Nat
  assigned_until : Option Nat
  assigned_by : Nat
deriving DecidableEq, Repr

structure Race where
  id : Nat
  name : String
  race_date : Nat
  track : String
  distance : String
  race_type : String
  status : String
deriving DecidableEq, Repr

structure RaceParticipant where
  id : Nat
  race_id : Nat
  horse_id : Nat
  jockey_name : String
deriving DecidableEq, Repr

/-- The record store: the collections the verified claims touch, plus
per-table auto-increment counters for `add` (Dexie `++id`). -/
structure Db where
  owners : List Owner
  horses : List Horse
  locations : List Location
  races : List Race
  location_assignments : List LocationAssignment
  race_participants : List RaceParticipant
  ownersNextId : Nat
  horsesNextId : Nat
  locationsNextId : Nat
deriving DecidableEq, Repr

/-! ## Status Deriver: location/activity status (LocationMap.loadData) -/

inductive LocStatus
  | stalled | walking | racing | training | medical | transport
deriving DecidableEq, Repr

/-- `RaceHistoryView.tsx` LocationMap.loadData: `let locationStatus = 'stalled';
if (horse.current_activity) { switch (horse.current_activity) { ... } }` -/
def locationStatusFor (current_activity : String) : LocStatus :=
  if current_activity = "" then .stalled
  else if current_activity = "racing" then .racing
  else if current_activity = "training" then .training
  else if current_activity = "walking" then .walking
  else if current_activity = "medical" then .medical
  else if current_activity = "transport" then .transport
  else .stalled

/-! ## Status Deriver: alert status (CommandCenter.loadCommandData) -/

inductive AlertColor
  | green | yellow | red | grey
deriving DecidableEq, Repr

/-- The if/else-if chain of `CommandCenter.tsx` loadCommandData computing
`status`/`statusText` from the horse row, the joined assignment and the
joined location. -/
def alertFor (horse : Horse) (assignment : Option LocationAssignment)
    (location : Option Location) : AlertColor × String :=
  if horse.status = "inactive" ∨ horse.status = "retired" then
    (.grey, if horse.status = "inactive" then "Inactive" else "Retired")
  else if horse.status = "injured" then
    (.red, "Injured - Medical Attention Required")
  else if horse.current_activity = "walking" ∧ assignment = none then
    (.yellow, "Walking - No Location Assigned")
  else if assignment.isSome ∧ location.isSome then
    (.green, "In " ++ (location.map Location.name).getD "" ++ " - " ++
      (if horse.current_activity = "" then "Assigned" else horse.current_activity))
  else if assignment = none then
    (.red, "No Location Assignment")
  else
    (.yellow, "Location Assignment Issue")

/-- `CommandCenter.tsx` line 35: `assignments.find(a => a.horse_id === horse.id)`
— the first assignment row of the horse, with no check of `assigned_until`. -/
def commandAssignmentFor (assignments : List LocationAssignment) (horse : Horse) :
    Option LocationAssignment :=
  assignments.find? (fun a => a.horse_id = horse.id)

/-- One entry of the CommandCenter `statuses` array. -/
structure HorseStatus where
  horse : Horse
  owner : Option Owner
  location : Option Location
  assignment : Option LocationAssignment
  status : AlertColor
  statusText : String
deriving DecidableEq, Repr

/-- `CommandCenter.tsx` loadCommandData: per-horse join (find owner, first
assignment row, its location) followed by the alert derivation. -/
def loadCommandData (db : Db) : List HorseStatus :=
  db.horses.map (fun horse =>
    let owner := db.owners.find? (fun o => o.id = horse.owner_id)
    let assignment := commandAssignmentFor db.location_assignments horse
    let location := assignment.bind (fun a =>
      db.locations.find? (fun l => l.id = a.location_id))
    let st := alertFor horse assignment location
    { horse := horse, owner := owner, location := location,
      assignment := assignment, status := st.1, statusText := st.2 })

/-! ## LocationMap current-assignment selection (RaceHistoryView.tsx) -/

/-- `!a.assigned_until || a.assigned_until > new Date()` -/
def isActiveAssignment (now : Nat) (a : LocationAssignment) : Bool :=
  match a.assigned_until with
  | none => true
  | some t => now < t

/-- Head of the stable descending sort by `assigned_at`
(`.sort((a, b) => b.assigned_at.getTime() - a.assigned_at.getTime())[0]`):
the first element attaining the maximal `assigned_at`. -/
def latestByAssignedAt : List LocationAssignment → Option LocationAssignment
  | [] => none
  | a :: rest =>
      some (rest.foldl (fun best x =>
        if best.assigned_at < x.assigned_at then x else best) a)

/-- `RaceHistoryView.tsx` LocationMap.loadData lines 1314-1321: restrict the
horse's assignments to non-expired ones and take the latest `assigned_at`. -/
def mapCurrentAssignmentFor (now : Nat) (assignments : List LocationAssignment)
    (horse : Horse) : Option LocationAssignment :=
  latestByAssignedAt (assignments.filter
    (fun a => a.horse_id = horse.id ∧ isActiveAssignment now a))

/-- One entry of the LocationMap `enhancedHorses` array (fields the claims
need). -/
structure HorseLocationVM where
  horse : Horse
  owner : Option Owner
  location : Option Location
  currentAssignment : Option LocationAssignment
  locationStatus : LocStatus
deriving DecidableEq, Repr

/-- `RaceHistoryView.tsx` LocationMap.loadData `enhancedHorses` mapping. -/
def locationMapEnhance (now : Nat) (db : Db) : List HorseLocationVM :=
  db.horses.map (fun horse =>
    let owner := db.owners.find? (fun o => o.id = horse.owner_id)
    let currentAssignment := mapCurrentAssignmentFor now db.location_assignments horse
    let location := currentAssignment.bind (fun a =>
      db.locations.find? (fun l => l.id = a.location_id))
    { horse := horse, owner := owner, location := location,
      currentAssignment := currentAssignment,
      locationStatus := locationStatusFor horse.current_activity })

/-! ## Unified Filter Engine (useUnifiedFilters.ts) -/

/-- `FilterOptions` of `useUnifiedFilters.ts` (all fields present; the hook
initialises every equality filter to `"all"` and `searchTerm` to `""`). -/
structure FilterOptions where
  owner : String
  horse : String
  status : String
  location : String
  race : String
  searchTerm : String
deriving DecidableEq, Repr

/-- `FilterData` of `useUnifiedFilters.ts`. -/
structure FilterData where
  owners : List Owner
  horses : List Horse
  locations : List Location
  races : List Race
  statuses : List String
deriving Repr

/-- JavaScript `parseInt` restricted to the inputs this code feeds it
(decimal strings, or non-numeric strings like `"all"`): the longest digit
prefix, `none` standing for `NaN`. -/
def jsParseInt (s : String) : Option Nat :=
  let ds := s.data.takeWhile Char.isDigit
  if ds.isEmpty then none
  else some (ds.foldl (fun n c => 10 * n + (c.toNat - 48)) 0)

/-- JavaScript `String.prototype.includes`. -/
def jsIncludes (hay needle : String) : Bool :=
  if needle = "" then true else (hay.splitOn needle).length > 1

/-- `[...].filter(Boolean).join(' ')` over strings. -/
def joinTruthy (fields : List String) : String :=
  String.intercalate " " (fields.filter (fun f => f ≠ ""))

/-- The shape `Horse & { owner?: Owner; location?: Location }` that
`filterFunctions.horses` receives. -/
structure JoinedHorse where
  horse : Horse
  owner : Option Owner
  location : Option Location
deriving DecidableEq, Repr

/-- `horse.owner_id === parseInt(filters.owner)` — false when `parseInt`
yields `NaN` (JavaScript `NaN === x` is always false). -/
def jsEqParseInt (k : Nat) (s : String) : Bool :=
  match jsParseInt s with
  | some n => k = n
  | none => false

/-- `filterFunctions.horses` of `useUnifiedFilters.ts` lines 101-131: owner
filter (`parseInt` equality on `owner_id`), status filter (string equality on
`status`), then the free-text search over the joined searchable fields. -/
def filterFunctions_horses (jh : JoinedHorse) (filters : FilterOptions)
    (_filterData : FilterData) : Bool :=
  if filters.owner ≠ "all" ∧ jsEqParseInt jh.horse.owner_id filters.owner = false then
    false
  else if filters.status ≠ "all" ∧ jh.horse.status ≠ filters.status then
    false
  else if filters.searchTerm ≠ "" then
    let searchLower := filters.searchTerm.toLower
    let searchFields := (joinTruthy
      [jh.horse.name, jh.horse.tracking_id, jh.horse.registration_number,
       jh.horse.breed, jh.horse.color,
       (jh.owner.map Owner.name).getD ""]).toLower
    jsIncludes searchFields searchLower
  else
    true

/-! ## Problem detector (HorsesPage.tsx ProblemsView.loadProblemsData) -/

structure ProblemEntry where
  horse : Horse
  owner : Option Owner
  location : Option Location
  assignment : Option LocationAssignment
  problem : String
  problemText : String
  details : String
deriving DecidableEq, Repr

/-- The body of the `horses.forEach` loop of loadProblemsData: the problem
entries pushed for one horse, in push order. -/
def problemsFor (db : Db) (horse : Horse) : List ProblemEntry :=
  let owner := db.owners.find? (fun o => o.id = horse.owner_id)
  let assignment := db.location_assignments.find? (fun a => a.horse_id = horse.id)
  let location := assignment.bind (fun a =>
    db.locations.find? (fun l => l.id = a.location_id))
  let critical : List ProblemEntry :=
    if horse.status = "injured" then
      [{ horse := horse, owner := owner, location := location,
         assignment := assignment, problem := "critical",
         problemText := "Horse Injured",
         details := "Horse requires immediate medical attention and should not be moved without veterinary approval." }]
    else if assignment = none ∧ horse.status = "active" then
      [{ horse := horse, owner := owner, location := location,
         assignment := assignment, problem := "critical",
         problemText := "No Location Assignment",
         details := "Active horse has no location assignment. This horse needs to be assigned to a proper location immediately." }]
    else []
  let warning : List ProblemEntry :=
    if horse.current_activity = "walking" ∧ assignment = none then
      [{ horse := horse, owner := owner, location := location,
         assignment := assignment, problem := "warning",
         problemText := "Walking Without Location",
         details := "Horse is walking but has no specific location assigned. Consider assigning to a paddock or track." }]
    else []
  let capacity : List ProblemEntry :=
    match assignment, location with
    | some _, some l =>
        let assignmentsInLocation :=
          db.location_assignments.filter (fun a => a.location_id = l.id)
        if assignmentsInLocation.length > l.capacity then
          [{ horse := horse, owner := owner, location := location,
             assignment := assignment, problem := "warning",
             problemText := "Location Over Capacity",
             details := l.name ++ " is over capacity (" ++
               toString assignmentsInLocation.length ++ "/" ++
               toString l.capacity ++ "). Consider redistributing horses." }]
        else []
    | _, _ => []
  critical ++ warning ++ capacity

/-- `loadProblemsData`: the `problems` array accumulated over all horses. -/
def loadProblemsData (db : Db) : List ProblemEntry :=
  (db.horses.map (problemsFor db)).flatten

/-! ## Tracking-id generation (RaceHistoryView.tsx generateTrackingId) -/

/-- `String(n).padStart(4, '0')`. -/
def padStart4 (s : String) : String :=
  if s.length ≥ 4 then s
  else String.mk (List.replicate (4 - s.length) '0') ++ s

/-- One candidate: `` `DM${year}${String(randomNum).padStart(4, '0')}` ``. -/
def mkTrackingId (year : Nat) (randomNum : Nat) : String :=
  "DM" ++ toString year ++ padStart4 (toString randomNum)

/-- The `do { ... } while (true)` loop of generateTrackingId. `rands k` is
the value `Math.floor(Math.random() * 9999) + 1` drawn on iteration `k`;
`attempts` is the counter after its `attempts++`; `fuel` bounds recursion and
is provably never exhausted because the loop throws once `attempts > 100`. -/
def generateTrackingIdGo (existing : List String) (year : Nat)
    (rands : Nat → Nat) : Nat → Nat → Except String String
  | _, 0 => Except.error "Failed to generate unique tracking ID after 100 attempts"
  | attempts, fuel + 1 =>
      let trackingId := mkTrackingId year (rands attempts)
      if existing.contains trackingId then
        if attempts + 1 > 100 then
          Except.error "Failed to generate unique tracking ID after 100 attempts"
        else
          generateTrackingIdGo existing year rands (attempts + 1) fuel
      else
        Except.ok trackingId

/-- `generateTrackingId`, abstracted over the stream of random draws and the
set of tracking ids already present (`db.horses.where('tracking_id')`). -/
def generateTrackingId (existing : List String) (year : Nat)
    (rands : Nat → Nat) : Except String String :=
  generateTrackingIdGo existing year rands 0 101

/-! ## Deletion operations -/

/-- `RaceHistoryView.tsx` deleteSelectedOwners: refuse when any selected owner
still has horses, otherwise `db.owners.bulkDelete(selectedOwners)`. -/
def deleteSelectedOwners (db : Db) (selectedOwners : List Nat) : Except String Db :=
  if selectedOwners = [] then Except.ok db
  else
    let ownersWithHorses := db.owners.filter (fun o =>
      selectedOwners.contains o.id ∧
      db.horses.any (fun h => h.owner_id = o.id))
    if ownersWithHorses.length > 0 then
      Except.error (toString ownersWithHorses.length ++
        " owner(s) have horses assigned. Remove horses first.")
    else
      Except.ok { db with
        owners := db.owners.filter (fun o => ¬ selectedOwners.contains o.id) }

/-- `SeasonManagementPage.tsx` handleBulkRemove / `RaceHistoryView.tsx`
deleteSelectedHorses: `db.horses.bulkDelete(selectedHorses)` and nothing
else — no cascade into any other collection. -/
def handleBulkRemove (db : Db) (selectedHorses : List Nat) : Db :=
  if selectedHorses = [] then db
  else { db with
    horses := db.horses.filter (fun h => ¬ selectedHorses.contains h.id) }

/-! ## Season CSV export / import (SeasonManagementPage.tsx)

A parsed CSV row (`Papa.parse` with `header: true`): every column is a
string, `""` standing for an absent/empty cell. The required-columns check of
handleCSVImport (`Season`, `Racetrack`, `HorseName`, `OwnerName`,
`OwnerEmail` must be present as keys) cannot fail in this typed model and is
therefore omitted; it precedes the season check and also throws before any
row is written, so omitting it does not affect the verified claims. -/

structure CSVRow where
  Season : String
  Racetrack : String
  HorseID : String
  HorseName : String
  Age : String
  Breed : String
  Color : String
  Gender : String
  Status : String
  TrackingID : String
  OwnerName : String
  OwnerEmail : String
  OwnerPhone : String
  OwnerAddress : String
  LocationName : String
  LocationType : String
  CurrentActivity : String
deriving DecidableEq, Repr

/-- JavaScript `s || d` on strings (`""` is falsy). -/
def jsOr (s d : String) : String :=
  if s = "" then d else s

/-- `generateCSVExport`: one row of `horsesData` for one horse. -/
def exportRowOf (db : Db) (selectedSeason selectedRacetrack : String)
    (h : Horse) : CSVRow :=
  let owner := db.owners.find? (fun o => o.id = h.owner_id)
  let location : Option Location := match h.current_location_id with
    | none => none
    | some lid => db.locations.find? (fun l => l.id = lid)
  { Season := selectedSeason, Racetrack := selectedRacetrack,
    HorseID := toString h.id, HorseName := h.name,
    Age := toString h.age, Breed := h.breed, Color := h.color,
    Gender := h.gender, Status := h.status, TrackingID := h.tracking_id,
    OwnerName := (owner.map Owner.name).getD "",
    OwnerEmail := (owner.map Owner.email).getD "",
    OwnerPhone := (owner.map Owner.phone).getD "",
    OwnerAddress := "",
    LocationName := (location.map Location.name).getD "",
    LocationType := (location.map Location.ltype).getD "",
    CurrentActivity := h.current_activity }

/-- `generateCSVExport` of `SeasonManagementPage.tsx`: the denormalized rows
written to the CSV file (the `Papa.unparse`/download plumbing is out of
scope; re-parsing the produced file yields exactly these rows). -/
def generateCSVExport (db : Db) (selectedSeason selectedRacetrack : String) :
    List CSVRow :=
  db.horses.map (exportRowOf db selectedSeason selectedRacetrack)

/-- Insertion into a JavaScript `Map` built by `new Map(list)`: a repeated
key overwrites the stored value in place, a new key appends. -/
def jsMapInsert (l : List (String × α)) (kv : String × α) : List (String × α) :=
  if l.any (fun p => p.1 = kv.1) then
    l.map (fun p => if p.1 = kv.1 then kv else p)
  else l ++ [kv]

/-- `Array.from(new Map(pairs).values())`. -/
def jsMapValues (pairs : List (String × α)) : List α :=
  (pairs.foldl jsMapInsert []).map Prod.snd

structure ImportOwner where
  name : String
  email : String
  phone : String
  address : String
deriving DecidableEq, Repr

structure ImportLocation where
  name : String
  ltype : String
  capacity : Nat
deriving DecidableEq, Repr

/-- One iteration of the owners import loop: skip when an owner with the same
email already exists in the live store, otherwise `db.owners.add`. -/
def addOwnerStep (now : Nat) (s : Db) (o : ImportOwner) : Db :=
  if (s.owners.find? (fun ow => ow.email = o.email)).isSome then s
  else { s with
    owners := s.owners ++
      [{ id := s.ownersNextId, name := o.name, email := o.email,
         phone := o.phone, address := o.address,
         created_at := now, updated_at := now }],
    ownersNextId := s.ownersNextId + 1 }

/-- One iteration of the locations import loop: skip when a location with the
same name already exists, otherwise `db.locations.add`. -/
def addLocationStep (now : Nat) (s : Db) (l : ImportLocation) : Db :=
  if (s.locations.find? (fun loc => loc.name = l.name)).isSome then s
  else { s with
    locations := s.locations ++
      [{ id := s.locationsNextId, name := l.name, ltype := l.ltype,
         capacity := l.capacity, current_occupancy := 0,
         created_at := now, updated_at := now }],
    locationsNextId := s.locationsNextId + 1 }

/-- `parseInt(row.Age) || 3` (both `NaN` and `0` are falsy). -/
def jsParseIntOr3 (s : String) : Nat :=
  match jsParseInt s with
  | some 0 => 3
  | some n => n
  | none => 3

/-- `x?.id || 1`. -/
def jsOwnerIdOr1 (o : Option Owner) : Nat :=
  match o with
  | some ow => if ow.id = 0 then 1 else ow.id
  | none => 1

/-- `location?.id || 1`. -/
def jsLocationIdOr1 (l : Option Location) : Nat :=
  match l with
  | some loc => if loc.id = 0 then 1 else loc.id
  | none => 1

/-- One iteration of the horses import loop: rows without a `HorseName` are
skipped; the tracking id is the row's `TrackingID` or a fresh
`` `TRK${Date.now()}-${random}` `` value (`freshTid i` for row index `i`); a
row whose tracking id already exists in the live store is skipped, otherwise
`db.horses.add`. Owner and location are resolved against the lists refreshed
after the owners/locations loops (`newOwners`, `newLocations`). -/
def importHorseStep (now : Nat) (freshTid : Nat → String)
    (newOwners : List Owner) (newLocations : List Location)
    (s : Db) (ir : Nat × CSVRow) : Db :=
  let row := ir.2
  if row.HorseName = "" then s
  else
    let owner := newOwners.find? (fun o =>
      o.name = row.OwnerName ∧ o.email = row.OwnerEmail)
    let location := newLocations.find? (fun l => l.name = row.LocationName)
    let trackingId := jsOr row.TrackingID (freshTid ir.1)
    if (s.horses.find? (fun h => h.tracking_id = trackingId)).isSome then s
    else { s with
      horses := s.horses ++
        [{ id := s.horsesNextId, tracking_id := trackingId,
           name := row.HorseName, registration_number := "",
           breed := jsOr row.Breed "Thoroughbred",
           color := jsOr row.Color "Bay", age := jsParseIntOr3 row.Age,
           gender := jsOr row.Gender "gelding",
           owner_id := jsOwnerIdOr1 owner,
           status := jsOr row.Status "active",
           current_location_id := some (jsLocationIdOr1 location),
           current_activity := jsOr row.CurrentActivity "Stabled",
           created_at := now, updated_at := now }],
      horsesNextId := s.horsesNextId + 1 }

/-- `handleCSVImport` of `SeasonManagementPage.tsx`: validation (empty file,
season/racetrack context) throws before any write; then the owners loop, the
locations loop, the `newOwners`/`newLocations` refresh, and the horses loop.
An `error` result models a throw with no row written (all throws occur
before the first `add`). -/
def handleCSVImport (s : Db) (selectedSeason selectedRacetrack : String)
    (now : Nat) (freshTid : Nat → String) (data : List CSVRow) :
    Except String Db :=
  match data with
  | [] => Except.error "CSV file is empty"
  | firstRow :: _ =>
    if firstRow.Season ≠ selectedSeason then
      Except.error ("CSV is for season " ++ firstRow.Season ++
        ", but you have " ++ selectedSeason ++
        " selected. Please switch to the correct season first.")
    else if firstRow.Racetrack ≠ selectedRacetrack then
      Except.error ("CSV is for racetrack " ++ firstRow.Racetrack ++
        ", but you have " ++ selectedRacetrack ++
        " selected. Please switch to the correct racetrack first.")
    else
      let uniqueOwners := jsMapValues (data.map (fun row =>
        (row.OwnerName ++ "-" ++ row.OwnerEmail,
         ImportOwner.mk row.OwnerName row.OwnerEmail
           row.OwnerPhone row.OwnerAddress)))
      let s1 := uniqueOwners.foldl (addOwnerStep now) s
      let uniqueLocations := jsMapValues
        ((data.filter (fun row => row.LocationName ≠ "")).map (fun row =>
          (row.LocationName,
           ImportLocation.mk row.LocationName (jsOr row.LocationType "Stable") 50)))
      let s2 := uniqueLocations.foldl (addLocationStep now) s1
      let newOwners := s2.owners
      let newLocations := s2.locations
      Except.ok ((data.enum).foldl
        (importHorseStep now freshTid newOwners newLocations) s2)

/-! ## Concrete sample data (used by witnesses and counterexamples) -/

def sampleOwner : Owner :=
  { id := 1, name := "John Smith Racing", email := "john@smithracing.com",
    phone := "555-0101", address := "", created_at := 0, updated_at := 0 }

def sampleLocation : Location :=
  { id := 1, name := "Main Track", ltype := "track", capacity := 20,
    current_occupancy := 0, created_at := 0, updated_at := 0 }

def sampleAssignment : LocationAssignment :=
  { id := 1, horse_id := 1, location_id := 1, assigned_at := 10,
    assigned_until := none, assigned_by := 1 }

/-- An assignment whose `assigned_until` (50) lies in the past of `now = 100`. -/
def expiredAssignment : LocationAssignment :=
  { id := 2, horse_id := 1, location_id := 1, assigned_at := 10,
    assigned_until := some 50, assigned_by := 1 }

def sampleHorse : Horse :=
  { id := 1, tracking_id := "DM20240001", name := "Horse 1",
    registration_number := "REG1", breed := "Thoroughbred", color := "Bay",
    age := 4, gender := "gelding", owner_id := 1, status := "active",
    current_location_id := some 1, current_activity := "racing",
    created_at := 0, updated_at := 0 }

/-! ## C4: location/activity status is a pure function of current_activity -/

/-- C4: the derived location/activity status of a horse is a pure function of
`current_activity` alone: it equals racing/training/walking/medical/transport
exactly on the corresponding exact string match and `stalled` on every other
value, including the empty (absent) one. The first conjunct ties the per-horse
field of the LocationMap view-model to that pure function. -/
theorem C4_location_status_pure :
    (∀ (now : Nat) (db : Db),
      (locationMapEnhance now db).map HorseLocationVM.locationStatus =
        db.horses.map (fun h => locationStatusFor h.current_activity)) ∧
    ∀ a : String,
      (locationStatusFor a = .racing ↔ a = "racing") ∧
      (locationStatusFor a = .training ↔ a = "training") ∧
      (locationStatusFor a = .walking ↔ a = "walking") ∧
      (locationStatusFor a = .medical ↔ a = "medical") ∧
      (locationStatusFor a = .transport ↔ a = "transport") ∧
      (locationStatusFor a = .stalled ↔
        (a ≠ "racing" ∧ a ≠ "training" ∧ a ≠ "walking" ∧
         a ≠ "medical" ∧ a ≠ "transport")) := by
  constructor
  · intro now db
    simp [locationMapEnhance]
  · intro a
    unfold locationStatusFor
    split_ifs <;> simp_all

/-! ## C1: alert status ordered precedence (CommandCenter) -/

/-- C1: the alert status is computed by an ordered precedence in which the
first matching rule wins: inactive/retired → grey; injured → red with the
medical text; walking with no assignment → yellow; assignment with resolved
location → green with the "In {location} - {activity|Assigned}" text; no
assignment → red "No Location Assignment"; anything else → yellow
"Location Assignment Issue". In particular an injured horse derives red
regardless of assignment/location data and an inactive or retired horse
derives grey regardless of assignment state. -/
theorem C1_alert_precedence :
    (∀ (h : Horse) (a : Option LocationAssignment) (l : Option Location),
      (h.status = "inactive" ∨ h.status = "retired") →
      (alertFor h a l).1 = .grey) ∧
    (∀ (h : Horse) (a : Option LocationAssignment) (l : Option Location),
      h.status = "injured" →
      alertFor h a l = (.red, "Injured - Medical Attention Required")) ∧
    (∀ (h : Horse) (l : Option Location),
      h.status ≠ "inactive" → h.status ≠ "retired" → h.status ≠ "injured" →
      h.current_activity = "walking" →
      alertFor h none l = (.yellow, "Walking - No Location Assigned")) ∧
    (∀ (h : Horse) (a : LocationAssignment) (loc : Location),
      h.status ≠ "inactive" → h.status ≠ "retired" → h.status ≠ "injured" →
      alertFor h (some a) (some loc) =
        (.green, "In " ++ loc.name ++ " - " ++
          (if h.current_activity = "" then "Assigned" else h.current_activity))) ∧
    (∀ (h : Horse) (l : Option Location),
      h.status ≠ "inactive" → h.status ≠ "retired" → h.status ≠ "injured" →
      h.current_activity ≠ "walking" →
      alertFor h none l = (.red, "No Location Assignment")) ∧
    (∀ (h : Horse) (a : LocationAssignment),
      h.status ≠ "inactive" → h.status ≠ "retired" → h.status ≠ "injured" →
      alertFor h (some a) none = (.yellow, "Location Assignment Issue")) := by
  refine ⟨?_, ?_, ?_, ?_, ?_, ?_⟩
  · intro h a l hst
    rcases hst with h1 | h1 <;> simp [alertFor, h1]
  · intro h a l hst
    simp [alertFor, hst]
  · intro h l h1 h2 h3 h4
    simp [alertFor, h1, h2, h3, h4]
  · intro h a loc h1 h2 h3
    simp [alertFor, h1, h2, h3]
  · intro h l h1 h2 h3 h4
    simp [alertFor, h1, h2, h3, h4]
  · intro h a h1 h2 h3
    simp [alertFor, h1, h2, h3]

/-- Witness for C1 at a concrete input: an injured horse holding a valid
current assignment to a resolved location still derives red, not green. -/
theorem C1_alert_precedence_witness :
    alertFor { sampleHorse with status := "injured" }
        (some sampleAssignment) (some sampleLocation) =
      (.red, "Injured - Medical Attention Required") :=
  C1_alert_precedence.2.1 { sampleHorse with status := "injured" }
    (some sampleAssignment) (some sampleLocation) rfl

/-! ## C10: bulk horse deletion touches only the horses collection -/

/-- C10: bulk horse deletion keyed by an id list removes rows only from the
horses collection; location_assignments and race_participants (and owners,
locations) are untouched, including rows whose horse_id references a deleted
horse, and such dangling rows no longer resolve to a horse at join time. -/
theorem C10_bulk_remove_frame :
    (∀ (s : Db) (ids : List Nat),
      (handleBulkRemove s ids).location_assignments = s.location_assignments ∧
      (handleBulkRemove s ids).race_participants = s.race_participants ∧
      (handleBulkRemove s ids).owners = s.owners ∧
      (handleBulkRemove s ids).locations = s.locations) ∧
    (∀ (s : Db) (ids : List Nat), ids ≠ [] →
      (handleBulkRemove s ids).horses =
        s.horses.filter (fun h => ¬ ids.contains h.id)) ∧
    (∀ (s : Db) (ids : List Nat) (a : LocationAssignment),
      a ∈ s.location_assignments →
      a ∈ (handleBulkRemove s ids).location_assignments) ∧
    (∀ (s : Db) (ids : List Nat) (a : LocationAssignment),
      a ∈ s.location_assignments → a.horse_id ∈ ids →
      (handleBulkRemove s ids).horses.find? (fun h => h.id = a.horse_id) = none) := by
  refine ⟨?_, ?_, ?_, ?_⟩
  · intro s ids
    unfold handleBulkRemove
    split_ifs <;> simp
  · intro s ids hne
    simp [handleBulkRemove, hne]
  · intro s ids a ha
    unfold handleBulkRemove
    split_ifs <;> simpa
  · intro s ids a _ hmem
    have hne : ids ≠ [] := by
      intro h
      rw [h] at hmem
      exact (List.not_mem_nil _) hmem
    simp only [handleBulkRemove, if_neg hne]
    rw [List.find?_eq_none]
    intro h hh
    simp only [List.mem_filter] at hh
    intro heq
    have h2 : h.id ∉ ids := by simpa using hh.2
    exact h2 (by rw [of_decide_eq_true heq]; exact hmem)

def sampleDb : Db :=
  { owners := [sampleOwner], horses := [sampleHorse],
    locations := [sampleLocation], races := [],
    location_assignments := [sampleAssignment], race_participants := [],
    ownersNextId := 2, horsesNextId := 2, locationsNextId := 2 }

/-- Witness for C10 at a concrete store: deleting horse 1 leaves its
assignment row in place, and that row no longer resolves to a horse. -/
theorem C10_bulk_remove_frame_witness :
    sampleAssignment ∈ (handleBulkRemove sampleDb [1]).location_assignments ∧
    (handleBulkRemove sampleDb [1]).horses.find?
      (fun h => h.id = sampleAssignment.horse_id) = none :=
  ⟨C10_bulk_remove_frame.2.2.1 sampleDb [1] sampleAssignment (by decide),
   C10_bulk_remove_frame.2.2.2 sampleDb [1] sampleAssignment (by decide) (by decide)⟩

/-! ## C7: owner deletion guarded by horse references -/

/-- C7: deleting an owner fails with no rows removed iff at least one horse
references it; when no horse references it, the deletion succeeds and removes
exactly that owner's rows from the owners collection (all other collections
untouched). -/
theorem C7_owner_deletion (s : Db) (o : Owner) (ho : o ∈ s.owners) :
    ((∃ msg, deleteSelectedOwners s [o.id] = Except.error msg) ↔
      ∃ h ∈ s.horses, h.owner_id = o.id) ∧
    ((¬ ∃ h ∈ s.horses, h.owner_id = o.id) →
      deleteSelectedOwners s [o.id] =
        Except.ok { s with owners := s.owners.filter (fun ow => ¬ ow.id = o.id) } ∧
      ∀ s', deleteSelectedOwners s [o.id] = Except.ok s' → o ∉ s'.owners) := by
  have hsel : ([o.id] : List Nat) ≠ [] := by simp
  have hfilter_char : ∀ (hno : ∀ h ∈ s.horses, h.owner_id ≠ o.id),
      s.owners.filter (fun ow =>
        [o.id].contains ow.id ∧ s.horses.any (fun h => h.owner_id = ow.id)) = [] := by
    intro hno
    rw [List.filter_eq_nil_iff]
    intro ow _
    simp only [decide_eq_true_eq, not_and, List.contains_cons, List.contains_nil,
      Bool.or_false, beq_iff_eq, List.any_eq_true, decide_eq_true_eq]
    intro howid
    rintro ⟨h, hh, hhid⟩
    exact hno h hh (hhid.trans howid)
  constructor
  · constructor
    · rintro ⟨msg, hmsg⟩
      by_contra hno
      push_neg at hno
      rw [deleteSelectedOwners, if_neg hsel] at hmsg
      simp only [hfilter_char hno] at hmsg
      simp at hmsg
    · rintro ⟨h, hh, hid⟩
      have hmem : o ∈ s.owners.filter (fun ow =>
          [o.id].contains ow.id ∧ s.horses.any (fun hh => hh.owner_id = ow.id)) := by
        rw [List.mem_filter]
        refine ⟨ho, ?_⟩
        simp only [decide_eq_true_eq, List.contains_cons, List.contains_nil,
          Bool.or_false, beq_iff_eq, List.any_eq_true, decide_eq_true_eq]
        refine ⟨?_, h, hh, ?_⟩ <;> simp [hid]
      have hlen : 0 < (s.owners.filter (fun ow =>
          [o.id].contains ow.id ∧ s.horses.any (fun hh => hh.owner_id = ow.id))).length :=
        List.length_pos.mpr (List.ne_nil_of_mem hmem)
      rw [deleteSelectedOwners, if_neg hsel]
      simp only [if_pos hlen]
      exact ⟨_, rfl⟩
  · intro hno
    push_neg at hno
    have hres : deleteSelectedOwners s [o.id] =
        Except.ok { s with
          owners := s.owners.filter (fun ow => ¬ [o.id].contains ow.id) } := by
      rw [deleteSelectedOwners, if_neg hsel]
      simp only [hfilter_char hno]
      simp
    have hfeq : s.owners.filter (fun ow => ¬ [o.id].contains ow.id) =
        s.owners.filter (fun ow => ¬ ow.id = o.id) := by
      apply List.filter_congr
      intro ow _
      simp
    constructor
    · rw [hres, hfeq]
    · intro s' hs'
      rw [hres] at hs'
      have hseq : { s with
          owners := s.owners.filter (fun ow => ¬ [o.id].contains ow.id) } = s' := by
        injection hs'
      rw [← hseq]
      intro hcontra
      simp only [List.mem_filter] at hcontra
      simp at hcontra

/-- Witness for C7 at a concrete input: owner 1 is referenced by horse 1, so
deleting owner 1 fails. -/
theorem C7_owner_deletion_witness :
    ∃ msg, deleteSelectedOwners sampleDb [sampleOwner.id] = Except.error msg :=
  (C7_owner_deletion sampleDb sampleOwner (by decide)).1.mpr
    ⟨sampleHorse, by decide, by decide⟩

/-! ## C2: selection of the "current" assignment -/

/-- The foldl in `latestByAssignedAt` stays inside the scanned list. -/
theorem latestFold_mem (rest : List LocationAssignment) :
    ∀ a : LocationAssignment,
      rest.foldl (fun best x => if best.assigned_at < x.assigned_at then x else best) a
        ∈ a :: rest := by
  induction rest with
  | nil => intro a; simp
  | cons x xs ih =>
      intro a
      simp only [List.foldl_cons]
      rcases List.mem_cons.mp (ih (if a.assigned_at < x.assigned_at then x else a)) with h | h
      · rw [h]
        split_ifs <;> simp
      · exact List.mem_cons_of_mem _ (List.mem_cons_of_mem _ h)

/-- The foldl in `latestByAssignedAt` dominates every scanned element. -/
theorem latestFold_ge (rest : List LocationAssignment) :
    ∀ a : LocationAssignment, ∀ b ∈ a :: rest,
      b.assigned_at ≤
        (rest.foldl (fun best x => if best.assigned_at < x.assigned_at then x else best)
          a).assigned_at := by
  induction rest with
  | nil =>
      intro a b hb
      simp only [List.mem_singleton] at hb
      simp [hb]
  | cons x xs ih =>
      intro a b hb
      simp only [List.foldl_cons]
      have hstep : a.assigned_at ≤ (if a.assigned_at < x.assigned_at then x else a).assigned_at ∧
          x.assigned_at ≤ (if a.assigned_at < x.assigned_at then x else a).assigned_at := by
        split_ifs with hlt
        · exact ⟨Nat.le_of_lt hlt, Nat.le_refl _⟩
        · exact ⟨Nat.le_refl _, Nat.le_of_not_lt hlt⟩
      rcases List.mem_cons.mp hb with h | h
      · calc b.assigned_at = a.assigned_at := by rw [h]
          _ ≤ (if a.assigned_at < x.assigned_at then x else a).assigned_at := hstep.1
          _ ≤ _ := ih _ _ (List.mem_cons_self _ _)
      · rcases List.mem_cons.mp h with h2 | h2
        · calc b.assigned_at = x.assigned_at := by rw [h2]
            _ ≤ (if a.assigned_at < x.assigned_at then x else a).assigned_at := hstep.2
            _ ≤ _ := ih _ _ (List.mem_cons_self _ _)
        · exact ih _ _ (List.mem_cons_of_mem _ h2)

/-- `latestByAssignedAt` returns a member of its input that dominates every
member. -/
theorem latestByAssignedAt_spec (l : List LocationAssignment)
    (a : LocationAssignment) (h : latestByAssignedAt l = some a) :
    a ∈ l ∧ ∀ b ∈ l, b.assigned_at ≤ a.assigned_at := by
  cases l with
  | nil => simp [latestByAssignedAt] at h
  | cons x xs =>
      simp only [latestByAssignedAt, Option.some.injEq] at h
      constructor
      · rw [← h]; exact latestFold_mem xs x
      · intro b hb
        rw [← h]
        exact latestFold_ge xs x b hb

/-- C2 (amended): in the LocationMap join, the selected current assignment
belongs to the horse, is non-expired, and carries the maximal `assigned_at`
among the horse's non-expired assignments; consequently an assignment whose
`assigned_until` lies in the past is never selected there. The CommandCenter
join, by contrast, takes the first assignment row matching the horse,
regardless of `assigned_until`. -/
theorem C2_current_assignment_selection :
    (∀ (now : Nat) (asgs : List LocationAssignment) (h : Horse)
        (a : LocationAssignment),
      mapCurrentAssignmentFor now asgs h = some a →
      a ∈ asgs ∧ a.horse_id = h.id ∧ isActiveAssignment now a = true ∧
      ∀ b ∈ asgs, b.horse_id = h.id → isActiveAssignment now b = true →
        b.assigned_at ≤ a.assigned_at) ∧
    (∀ (now : Nat) (asgs : List LocationAssignment) (h : Horse)
        (a : LocationAssignment),
      isActiveAssignment now a = false →
      mapCurrentAssignmentFor now asgs h ≠ some a) ∧
    (∀ (asgs : List LocationAssignment) (h : Horse),
      commandAssignmentFor asgs h = asgs.find? (fun a => a.horse_id = h.id)) := by
  have main : ∀ (now : Nat) (asgs : List LocationAssignment) (h : Horse)
      (a : LocationAssignment),
      mapCurrentAssignmentFor now asgs h = some a →
      a ∈ asgs ∧ a.horse_id = h.id ∧ isActiveAssignment now a = true ∧
      ∀ b ∈ asgs, b.horse_id = h.id → isActiveAssignment now b = true →
        b.assigned_at ≤ a.assigned_at := by
    intro now asgs h a hsel
    obtain ⟨hmem, hmax⟩ := latestByAssignedAt_spec _ _ hsel
    rw [List.mem_filter] at hmem
    obtain ⟨hmem', hpred⟩ := hmem
    simp only [decide_eq_true_eq] at hpred
    refine ⟨hmem', hpred.1, hpred.2, ?_⟩
    intro b hb hbid hbact
    apply hmax
    rw [List.mem_filter]
    refine ⟨hb, ?_⟩
    simp only [decide_eq_true_eq]
    exact ⟨hbid, hbact⟩
  refine ⟨main, ?_, fun _ _ => rfl⟩
  intro now asgs h a hexp hsel
  have := (main now asgs h a hsel).2.2.1
  rw [hexp] at this
  exact Bool.false_ne_true this

/-- Counterexample to C2 as stated: at `now = 100`, horse 1's only assignment
expired at 50, yet the CommandCenter join still selects it as the horse's
assignment, while the LocationMap selection (restrict to non-expired, latest
`assigned_at`) correctly yields none. -/
theorem C2_counterexample :
    commandAssignmentFor [expiredAssignment] sampleHorse = some expiredAssignment ∧
    isActiveAssignment 100 expiredAssignment = false ∧
    mapCurrentAssignmentFor 100 [expiredAssignment] sampleHorse = none := by
  refine ⟨rfl, rfl, ?_⟩
  decide

/-- Witness for C2 (amended) at a concrete input. -/
theorem C2_current_assignment_selection_witness :
    sampleAssignment ∈ [sampleAssignment] ∧
    sampleAssignment.horse_id = sampleHorse.id ∧
    isActiveAssignment 100 sampleAssignment = true ∧
    ∀ b ∈ [sampleAssignment], b.horse_id = sampleHorse.id →
      isActiveAssignment 100 b = true →
      b.assigned_at ≤ sampleAssignment.assigned_at :=
  C2_current_assignment_selection.1 100 [sampleAssignment] sampleHorse
    sampleAssignment (by decide)

/-! ## C3: the unified horse filter -/

/-- Modelled from claim C3's words, for the comparison that refutes it: the
location equality filter — skipped when the stored value is `"all"`,
otherwise passing exactly when the filter string parsed as an integer equals
the item's location foreign key. -/
def specLocationFilterPass (jh : JoinedHorse) (filters : FilterOptions) : Bool :=
  if filters.location = "all" then true
  else
    match jsParseInt filters.location with
    | some n => jh.horse.current_location_id = some n
    | none => false

def cexFilters : FilterOptions :=
  { owner := "all", horse := "all", status := "all", location := "5",
    race := "all", searchTerm := "" }

def cexFilterData : FilterData :=
  { owners := [], horses := [], locations := [], races := [],
    statuses := ["active", "inactive", "injured", "retired"] }

def cexJoined : JoinedHorse :=
  { horse := { sampleHorse with current_location_id := some 3 },
    owner := none, location := none }

/-- Counterexample to C3 as stated: with an active location filter `"5"`, a
horse view-model whose location foreign key is 3 fails the claimed location
equality filter, yet `filterFunctions.horses` still includes it — the horses
adapter applies no location (nor race, nor horse) equality filter at all. -/
theorem C3_counterexample :
    filterFunctions_horses cexJoined cexFilters cexFilterData = true ∧
    specLocationFilterPass cexJoined cexFilters = false := by
  refine ⟨rfl, ?_⟩
  decide

/-- The owner check of the horses adapter, spec-style. -/
def ownerFilterPass (jh : JoinedHorse) (filters : FilterOptions) : Bool :=
  if filters.owner = "all" then true
  else jsEqParseInt jh.horse.owner_id filters.owner

/-- The status check of the horses adapter, spec-style: plain string equality
with the status field, not a numeric foreign-key comparison. -/
def statusFilterPass (jh : JoinedHorse) (filters : FilterOptions) : Bool :=
  if filters.status = "all" then true
  else jh.horse.status = filters.status

/-- The free-text check of the horses adapter, spec-style. -/
def searchFilterPass (jh : JoinedHorse) (filters : FilterOptions) : Bool :=
  if filters.searchTerm = "" then true
  else
    jsIncludes ((joinTruthy
      [jh.horse.name, jh.horse.tracking_id, jh.horse.registration_number,
       jh.horse.breed, jh.horse.color,
       (jh.owner.map Owner.name).getD ""]).toLower)
      filters.searchTerm.toLower

/-- C3 (amended): the horses adapter applies exactly three checks — owner
(skipped on "all", else `parseInt` equality with `owner_id`), status (skipped
on "all", else string equality with the status field), and the free-text
search — and includes an item iff all three pass (logical AND); the location,
race, and horse filters are not applied to horse view-models. -/
theorem C3_filter_conjunction :
    ∀ (jh : JoinedHorse) (filters : FilterOptions) (fd : FilterData),
      filterFunctions_horses jh filters fd =
        (ownerFilterPass jh filters && statusFilterPass jh filters &&
          searchFilterPass jh filters) := by
  intro jh f fd
  unfold filterFunctions_horses ownerFilterPass statusFilterPass searchFilterPass
  by_cases h1 : f.owner = "all" <;>
    by_cases h2 : f.status = "all" <;>
      by_cases h3 : f.searchTerm = "" <;>
        cases hje : jsEqParseInt jh.horse.owner_id f.owner <;>
          by_cases hst : jh.horse.status = f.status <;>
            simp [h1, h2, h3, hje, hst]

/-! ## C6: tracking-id generation -/

/-- A successful run of the generation loop returns a candidate of the
`DM<year><padded-random>` form drawn at some attempt index ≤ 100 that does
not collide with any existing id. -/
theorem generateTrackingIdGo_ok (existing : List String) (year : Nat)
    (rands : Nat → Nat) :
    ∀ (fuel attempts : Nat), attempts ≤ 100 →
      ∀ tid, generateTrackingIdGo existing year rands attempts fuel = Except.ok tid →
        tid ∉ existing ∧ ∃ k, k ≤ 100 ∧ tid = mkTrackingId year (rands k) := by
  intro fuel
  induction fuel with
  | zero =>
      intro attempts _ tid h
      simp [generateTrackingIdGo] at h
  | succ fuel ih =>
      intro attempts hatt tid h
      rw [generateTrackingIdGo] at h
      by_cases hc : existing.contains (mkTrackingId year (rands attempts))
      · rw [if_pos hc] at h
        by_cases h101 : attempts + 1 > 100
        · rw [if_pos h101] at h
          simp at h
        · rw [if_neg h101] at h
          exact ih (attempts + 1) (Nat.le_of_not_lt h101) tid h
      · rw [if_neg hc] at h
        have htid : tid = mkTrackingId year (rands attempts) := by
          simpa using h.symm
        refine ⟨?_, attempts, hatt, htid⟩
        rw [htid]
        intro hmem
        exact hc (List.contains_iff_exists_mem_beq.mpr ⟨_, hmem, by simp⟩)

/-- When every candidate drawn on attempts 0..100 collides, the loop throws
the distinct error after exhausting its retries. -/
theorem generateTrackingIdGo_all_collide (existing : List String) (year : Nat)
    (rands : Nat → Nat)
    (hall : ∀ k, k ≤ 100 → mkTrackingId year (rands k) ∈ existing) :
    ∀ (fuel attempts : Nat), attempts ≤ 100 →
      generateTrackingIdGo existing year rands attempts fuel =
        Except.error "Failed to generate unique tracking ID after 100 attempts" := by
  intro fuel
  induction fuel with
  | zero => intro attempts _; rfl
  | succ fuel ih =>
      intro attempts hatt
      rw [generateTrackingIdGo]
      have hc : existing.contains (mkTrackingId year (rands attempts)) := by
        exact List.contains_iff_exists_mem_beq.mpr
          ⟨_, hall attempts hatt, by simp⟩
      rw [if_pos hc]
      by_cases h101 : attempts + 1 > 100
      · rw [if_pos h101]
      · rw [if_neg h101]
        exact ih (attempts + 1) (Nat.le_of_not_lt h101)

/-- C6: a generated tracking id has the form `DM<year><4-digit-padded number>`
and never collides with an existing id (so appending it preserves global
uniqueness of tracking ids); when the drawn candidates keep colliding, the
generator retries and fails with a distinct error once the 100-retry budget
is exhausted, rather than returning a duplicate. -/
theorem C6_tracking_id_generation (existing : List String) (year : Nat)
    (rands : Nat → Nat) :
    (∀ tid, generateTrackingId existing year rands = Except.ok tid →
      tid ∉ existing ∧
      (∃ k, k ≤ 100 ∧
        tid = "DM" ++ toString year ++ padStart4 (toString (rands k))) ∧
      (existing.Nodup → (tid :: existing).Nodup)) ∧
    ((∀ k, k ≤ 100 → mkTrackingId year (rands k) ∈ existing) →
      generateTrackingId existing year rands =
        Except.error "Failed to generate unique tracking ID after 100 attempts") := by
  constructor
  · intro tid hok
    obtain ⟨hnotin, k, hk, htid⟩ :=
      generateTrackingIdGo_ok existing year rands 101 0 (by omega) tid hok
    refine ⟨hnotin, ⟨k, hk, htid⟩, ?_⟩
    intro hnd
    exact List.Nodup.cons hnotin hnd
  · intro hall
    exact generateTrackingIdGo_all_collide existing year rands hall 101 0 (by omega)

/-- Witness for C6 at a concrete input: with no collisions, the first draw
(4217 in year 2024) is returned, is fresh, and keeps the id list duplicate
free. -/
theorem C6_tracking_id_generation_witness :
    "DM20244217" ∉ ["DM20240001"] ∧
    (∃ k, k ≤ 100 ∧
      "DM20244217" = "DM" ++ toString 2024 ++
        padStart4 (toString ((fun _ => 4217) k))) ∧
    (["DM20240001"].Nodup → ("DM20244217" :: ["DM20240001"]).Nodup) :=
  (C6_tracking_id_generation ["DM20240001"] 2024 (fun _ => 4217)).1
    "DM20244217" rfl

/-! ## C5: the over-capacity warning counts all assignment rows -/

/-- C5: for a horse whose selected assignment resolves to a location, the
problem detector emits a "Location Over Capacity" warning exactly when the
count of ALL assignment rows referencing that location — with no restriction
on `assigned_until`, so expired rows included — exceeds the location's
capacity; and every per-horse problem entry of a stored horse appears in the
full problems list. -/
theorem C5_over_capacity (db : Db) (horse : Horse) (a : LocationAssignment)
    (l : Location)
    (hfind : db.location_assignments.find? (fun x => x.horse_id = horse.id) = some a)
    (hloc : db.locations.find? (fun x => x.id = a.location_id) = some l) :
    ((∃ p ∈ problemsFor db horse,
        p.problemText = "Location Over Capacity" ∧ p.problem = "warning") ↔
      (db.location_assignments.filter
        (fun x => x.location_id = l.id)).length > l.capacity) ∧
    (horse ∈ db.horses → ∀ p ∈ problemsFor db horse, p ∈ loadProblemsData db) := by
  constructor
  · rw [problemsFor]
    simp only [hfind, Option.some_bind, hloc]
    split_ifs <;> simp_all
  · intro hmem p hp
    rw [loadProblemsData]
    rw [List.mem_flatten]
    exact ⟨problemsFor db horse, List.mem_map_of_mem _ hmem, hp⟩

def overCapLocation : Location :=
  { id := 1, name := "Medical Bay", ltype := "medical", capacity := 0,
    current_occupancy := 0, created_at := 0, updated_at := 0 }

def overCapDb : Db :=
  { owners := [sampleOwner], horses := [sampleHorse],
    locations := [overCapLocation], races := [],
    location_assignments := [sampleAssignment], race_participants := [],
    ownersNextId := 2, horsesNextId := 2, locationsNextId := 2 }

/-- Witness for C5 at a concrete store: one assignment row against a
capacity-0 location triggers the warning. -/
theorem C5_over_capacity_witness :
    ∃ p ∈ problemsFor overCapDb sampleHorse,
      p.problemText = "Location Over Capacity" ∧ p.problem = "warning" :=
  (C5_over_capacity overCapDb sampleHorse sampleAssignment overCapLocation
    rfl rfl).1.mpr (by decide)

/-! ## C9: season/racetrack mismatch rejects the import before any write -/

/-- C9: when the file's first row carries a Season or Racetrack different
from the selected context, the import ends in a descriptive error and never
produces an updated store — in the source, both throws sit before the first
`add`, so no owner, location, or horse row is written. -/
theorem C9_import_context_mismatch (s : Db) (season track : String) (now : Nat)
    (ft : Nat → String) (hd : CSVRow) (tl : List CSVRow)
    (hmis : hd.Season ≠ season ∨ hd.Racetrack ≠ track) :
    (∃ msg, handleCSVImport s season track now ft (hd :: tl) = Except.error msg) ∧
    ∀ s', handleCSVImport s season track now ft (hd :: tl) ≠ Except.ok s' := by
  have herr : ∃ msg,
      handleCSVImport s season track now ft (hd :: tl) = Except.error msg := by
    rw [handleCSVImport]
    split_ifs with h1 h2
    · exact ⟨_, rfl⟩
    · exact ⟨_, rfl⟩
    · rcases hmis with hm | hm
      · exact absurd (by simpa using h1) hm
      · exact absurd (by simpa using h2) hm
  obtain ⟨msg, hmsg⟩ := herr
  refine ⟨⟨msg, hmsg⟩, ?_⟩
  intro s' hok
  rw [hmsg] at hok
  simp at hok

def mismatchRow : CSVRow :=
  { Season := "2025", Racetrack := "Del Mar", HorseID := "1",
    HorseName := "Horse 1", Age := "4", Breed := "Thoroughbred",
    Color := "Bay", Gender := "gelding", Status := "active",
    TrackingID := "DM20240001", OwnerName := "John Smith Racing",
    OwnerEmail := "john@smithracing.com", OwnerPhone := "555-0101",
    OwnerAddress := "", LocationName := "Main Track",
    LocationType := "track", CurrentActivity := "racing" }

/-- Witness for C9 at a concrete input: a file for season 2025 imported under
the 2024 context is rejected with an error. -/
theorem C9_import_context_mismatch_witness :
    (∃ msg, handleCSVImport sampleDb "2024" "Del Mar" 0 (fun _ => "TRK")
      [mismatchRow] = Except.error msg) ∧
    ∀ s', handleCSVImport sampleDb "2024" "Del Mar" 0 (fun _ => "TRK")
      [mismatchRow] ≠ Except.ok s' :=
  C9_import_context_mismatch sampleDb "2024" "Del Mar" 0 (fun _ => "TRK")
    mismatchRow [] (Or.inl (by decide))

/-! ## C8: export / re-import round trip -/

/-- A fold whose step fixes the accumulator on every list element fixes it
overall. -/
theorem foldl_fixed {α β : Type} (step : α → β → α) (s : α) :
    ∀ (L : List β), (∀ b ∈ L, step s b = s) → L.foldl step s = s := by
  intro L
  induction L with
  | nil => intro _; rfl
  | cons b bs ih =>
      intro hfix
      rw [List.foldl_cons, hfix b (List.mem_cons_self _ _)]
      exact ih (fun x hx => hfix x (List.mem_cons_of_mem _ hx))

theorem jsMapInsert_values_pred {α : Type} (P : α → Prop)
    (acc : List (String × α)) (kv : String × α)
    (hacc : ∀ p ∈ acc, P p.2) (hkv : P kv.2) :
    ∀ p ∈ jsMapInsert acc kv, P p.2 := by
  intro p hp
  rw [jsMapInsert] at hp
  split_ifs at hp
  · obtain ⟨q, hq, hqe⟩ := List.mem_map.mp hp
    by_cases hkey : q.1 = kv.1
    · rw [if_pos hkey] at hqe
      rw [← hqe]
      exact hkv
    · rw [if_neg hkey] at hqe
      rw [← hqe]
      exact hacc q hq
  · rcases List.mem_append.mp hp with h | h
    · exact hacc p h
    · rw [List.mem_singleton] at h
      rw [h]
      exact hkv

theorem jsMapFold_values_pred {α : Type} (P : α → Prop) :
    ∀ (pairs acc : List (String × α)),
      (∀ p ∈ pairs, P p.2) → (∀ p ∈ acc, P p.2) →
      ∀ p ∈ pairs.foldl jsMapInsert acc, P p.2 := by
  intro pairs
  induction pairs with
  | nil => intro acc _ hacc p hp; exact hacc p hp
  | cons kv rest ih =>
      intro acc hpairs hacc p hp
      rw [List.foldl_cons] at hp
      exact ih (jsMapInsert acc kv)
        (fun q hq => hpairs q (List.mem_cons_of_mem _ hq))
        (jsMapInsert_values_pred P acc kv hacc
          (hpairs kv (List.mem_cons_self _ _)))
        p hp

theorem jsMapValues_pred {α : Type} (P : α → Prop)
    (pairs : List (String × α)) (hpairs : ∀ p ∈ pairs, P p.2) :
    ∀ v ∈ jsMapValues pairs, P v := by
  intro v hv
  rw [jsMapValues] at hv
  obtain ⟨p, hp, hpe⟩ := List.mem_map.mp hv
  rw [← hpe]
  exact jsMapFold_values_pred P pairs [] hpairs (by simp) p hp

theorem addOwnerStep_id (now : Nat) (s : Db) (o : ImportOwner)
    (h : ∃ ow ∈ s.owners, ow.email = o.email) :
    addOwnerStep now s o = s := by
  rw [addOwnerStep]
  obtain ⟨ow, how, hoe⟩ := h
  rw [if_pos (List.find?_isSome.mpr ⟨ow, how, by simp [hoe]⟩)]

theorem addLocationStep_id (now : Nat) (s : Db) (l : ImportLocation)
    (h : ∃ loc ∈ s.locations, loc.name = l.name) :
    addLocationStep now s l = s := by
  rw [addLocationStep]
  obtain ⟨loc, hloc, hln⟩ := h
  rw [if_pos (List.find?_isSome.mpr ⟨loc, hloc, by simp [hln]⟩)]

theorem importHorseStep_id (now : Nat) (ft : Nat → String)
    (newOwners : List Owner) (newLocations : List Location) (s : Db)
    (ir : Nat × CSVRow)
    (h : ir.2.HorseName = "" ∨
      (ir.2.TrackingID ≠ "" ∧ ∃ hh ∈ s.horses, hh.tracking_id = ir.2.TrackingID)) :
    importHorseStep now ft newOwners newLocations s ir = s := by
  by_cases hname : ir.2.HorseName = ""
  · rw [importHorseStep, if_pos hname]
  · rcases h with h | ⟨htid, hh, hhm, hht⟩
    · exact absurd h hname
    · simp only [importHorseStep]
      rw [if_neg hname]
      have htid2 : jsOr ir.2.TrackingID (ft ir.1) = ir.2.TrackingID := by
        rw [jsOr, if_neg htid]
      rw [htid2, if_pos (List.find?_isSome.mpr ⟨hh, hhm, by simp [hht]⟩)]

/-- Every element of `l.enumFrom n` carries an element of `l`. -/
theorem snd_mem_of_mem_enumFrom {α : Type} :
    ∀ (l : List α) (n : Nat) (p : Nat × α), p ∈ l.enumFrom n → p.2 ∈ l := by
  intro l
  induction l with
  | nil => intro n p hp; simp [List.enumFrom] at hp
  | cons x xs ih =>
      intro n p hp
      rw [List.enumFrom] at hp
      rcases List.mem_cons.mp hp with h | h
      · rw [h]
        exact List.mem_cons_self _ _
      · exact List.mem_cons_of_mem _ (ih (n + 1) p h)

theorem snd_mem_of_mem_enum {α : Type} (l : List α) (p : Nat × α)
    (hp : p ∈ l.enum) : p.2 ∈ l :=
  snd_mem_of_mem_enumFrom l 0 p hp

theorem exportRowOf_Season (db : Db) (se tr : String) (h : Horse) :
    (exportRowOf db se tr h).Season = se := rfl

theorem exportRowOf_Racetrack (db : Db) (se tr : String) (h : Horse) :
    (exportRowOf db se tr h).Racetrack = tr := rfl

theorem exportRowOf_TrackingID (db : Db) (se tr : String) (h : Horse) :
    (exportRowOf db se tr h).TrackingID = h.tracking_id := rfl

theorem exportRowOf_OwnerEmail (db : Db) (se tr : String) (h : Horse) :
    (exportRowOf db se tr h).OwnerEmail =
      ((db.owners.find? (fun o => o.id = h.owner_id)).map Owner.email).getD "" := rfl

theorem exportRowOf_LocationName (db : Db) (se tr : String) (h : Horse) :
    (exportRowOf db se tr h).LocationName =
      (((match h.current_location_id with
         | none => none
         | some lid => db.locations.find? (fun l => l.id = lid)) :
        Option Location).map Location.name).getD "" := rfl

/-- C8: re-importing the exported dataset under the same season/racetrack
context is the identity on the store — no duplicate horse, owner, or location
rows are created and all counts are unchanged — provided the store is
well-formed in the sense of the data model: every horse has a non-empty
tracking id and a resolvable owner foreign key. -/
theorem C8_round_trip (s : Db) (season track : String) (now : Nat)
    (ft : Nat → String)
    (h1 : ∀ h ∈ s.horses, h.tracking_id ≠ "")
    (h2 : ∀ h ∈ s.horses, ∃ o ∈ s.owners, o.id = h.owner_id)
    (h3 : s.horses ≠ []) :
    handleCSVImport s season track now ft (generateCSVExport s season track) =
      Except.ok s := by
  obtain ⟨h0, hs, hcons⟩ : ∃ h0 hs, s.horses = h0 :: hs := by
    cases hh : s.horses with
    | nil => exact absurd hh h3
    | cons a l => exact ⟨a, l, rfl⟩
  have hrows : ∀ row ∈ generateCSVExport s season track,
      ∃ h ∈ s.horses, row = exportRowOf s season track h := by
    intro row hrow
    rw [generateCSVExport] at hrow
    obtain ⟨h, hh, he⟩ := List.mem_map.mp hrow
    exact ⟨h, hh, he.symm⟩
  have howners : ∀ io ∈ jsMapValues ((generateCSVExport s season track).map
      (fun row => (row.OwnerName ++ "-" ++ row.OwnerEmail,
        ImportOwner.mk row.OwnerName row.OwnerEmail row.OwnerPhone
          row.OwnerAddress))),
      addOwnerStep now s io = s := by
    intro io hio
    apply addOwnerStep_id
    revert io hio
    apply jsMapValues_pred (fun io : ImportOwner => ∃ ow ∈ s.owners, ow.email = io.email)
    intro p hp
    obtain ⟨row, hrow, hpe⟩ := List.mem_map.mp hp
    obtain ⟨h, hh, hre⟩ := hrows row hrow
    obtain ⟨o, ho, hoid⟩ := h2 h hh
    have hfind : (s.owners.find? (fun ow => ow.id = h.owner_id)).isSome :=
      List.find?_isSome.mpr ⟨o, ho, by simp [hoid]⟩
    obtain ⟨o', ho'⟩ := Option.isSome_iff_exists.mp hfind
    refine ⟨o', List.mem_of_find?_eq_some ho', ?_⟩
    rw [← hpe]
    show o'.email = row.OwnerEmail
    rw [hre, exportRowOf_OwnerEmail, ho']
    rfl
  have hlocs : ∀ il ∈ jsMapValues (((generateCSVExport s season track).filter
      (fun row => row.LocationName ≠ "")).map
      (fun row => (row.LocationName,
        ImportLocation.mk row.LocationName (jsOr row.LocationType "Stable") 50))),
      addLocationStep now s il = s := by
    intro il hil
    apply addLocationStep_id
    revert il hil
    apply jsMapValues_pred (fun il : ImportLocation => ∃ loc ∈ s.locations, loc.name = il.name)
    intro p hp
    obtain ⟨row, hrow, hpe⟩ := List.mem_map.mp hp
    have hrow' := List.mem_filter.mp hrow
    obtain ⟨h, hh, hre⟩ := hrows row hrow'.1
    have hname : row.LocationName ≠ "" := by simpa using hrow'.2
    rw [← hpe]
    show ∃ loc ∈ s.locations, loc.name = row.LocationName
    cases hcl : h.current_location_id with
    | none =>
        rw [hre, exportRowOf_LocationName, hcl] at hname
        simp at hname
    | some lid =>
        cases hf : s.locations.find? (fun l => l.id = lid) with
        | none =>
            rw [hre, exportRowOf_LocationName, hcl] at hname
            simp [hf] at hname
        | some loc =>
            refine ⟨loc, List.mem_of_find?_eq_some hf, ?_⟩
            rw [hre, exportRowOf_LocationName, hcl]
            simp [hf]
  have hhorses : ∀ ir ∈ (generateCSVExport s season track).enum,
      importHorseStep now ft s.owners s.locations s ir = s := by
    intro ir hir
    obtain ⟨h, hh, hre⟩ := hrows ir.2 (snd_mem_of_mem_enum _ _ hir)
    apply importHorseStep_id
    right
    constructor
    · rw [hre, exportRowOf_TrackingID]
      exact h1 h hh
    · exact ⟨h, hh, by rw [hre, exportRowOf_TrackingID]⟩
  have hdata : generateCSVExport s season track =
      exportRowOf s season track h0 :: hs.map (exportRowOf s season track) := by
    rw [generateCSVExport, hcons, List.map_cons]
  rw [hdata]
  simp only [handleCSVImport]
  rw [if_neg (by simp [exportRowOf_Season]),
    if_neg (by simp [exportRowOf_Racetrack])]
  rw [← hdata]
  rw [foldl_fixed (addOwnerStep now) s _ howners]
  rw [foldl_fixed (addLocationStep now) s _ hlocs]
  rw [foldl_fixed (importHorseStep now ft s.owners s.locations) s _ hhorses]

/-- Witness for C8 at a concrete store: exporting and re-importing the sample
store under the same context returns the store unchanged. -/
theorem C8_round_trip_witness :
    handleCSVImport sampleDb "2024" "Del Mar" 0 (fun _ => "TRK")
      (generateCSVExport sampleDb "2024" "Del Mar") = Except.ok sampleDb :=
  C8_round_trip sampleDb "2024" "Del Mar" 0 (fun _ => "TRK")
    (by decide) (by decide) (by decide)
